import Mathlib

/-
Verification development for the fire-dashboard analytics core.

The numeric domain of the TypeScript source (JS `number`) is modelled by `ℚ`
wherever the source computes with field operations only, so that the
embedding stays executable.  The standard deviation is delegated by the
source to an external package; per the specification it is the square root
of the population variance, hence it (and everything downstream of it) is
valued in `ℝ`.  Dates are modelled by `ℤ` (epoch milliseconds, the value of
`new Date(d).getTime()` used by the comparators).  JS `Array.prototype.sort`
(a stable sort obeying the comparator) is modelled by `List.mergeSort`.
-/

namespace FireDashboard

/-! ## Constants (src/domain/constants.ts) -/

def TRADING_DAYS_YEAR : ℕ := 250

def TRADING_DAYS_SEMESTER : ℕ := 125

def TRADING_DAYS_QUARTER : ℕ := 63

def TRADING_DAYS_MONTH : ℕ := 21

def TRADING_DAYS_WEEK : ℕ := 5

def LOOKBACK_MIN : ℕ := 1

def LOOKBACK_MAX : ℕ := 1000

/-! ## Returns (src/domain/finance/returns.ts) -/

/-- `calculateTrailingReturn(currentPrice, pastPrice)`:
`((currentPrice - pastPrice) / pastPrice) * 100`, guarded to `0` when
`pastPrice <= 0`. -/
def calculateTrailingReturn (currentPrice pastPrice : ℚ) : ℚ :=
  if pastPrice ≤ 0 then 0
  else ((currentPrice - pastPrice) / pastPrice) * 100

/-- `calculateReturns(prices)`: the loop pushing
`calculateTrailingReturn(prices[i], prices[i-1])` for `i = 1 .. length-1`;
empty result when fewer than two prices. -/
def calculateReturns : List ℚ → List ℚ
  | [] => []
  | [_] => []
  | a :: b :: rest => calculateTrailingReturn b a :: calculateReturns (b :: rest)

/-! ## Statistics (src/domain/finance/statistics.ts) -/

/-- `calculateMean(values)`: arithmetic mean, `0` for the empty sample. -/
def calculateMean (values : List ℚ) : ℚ :=
  if values.length = 0 then 0
  else values.sum / values.length

/-- `calculateVariance(values)`: `0` for fewer than two samples, otherwise the
mean of the squared deviations from the mean (population variance). -/
def calculateVariance (values : List ℚ) : ℚ :=
  if values.length < 2 then 0
  else calculateMean (values.map (fun val => (val - calculateMean values) ^ 2))

/-- Modelled from the spec: the body of `calcStdDev` is
`calculateStandardDeviation` imported from the external package
`@railpath/finance-toolkit`, whose source is not part of this repository;
the spec defines the standard deviation as the square root of the
population variance. -/
noncomputable def calcStdDev (values : List ℚ) : ℝ :=
  Real.sqrt (calculateVariance values)

/-- `calculateStandardDeviation(values)`: `0` for fewer than two samples,
otherwise the external `calcStdDev` (the `try/catch` of the source cannot
fire in the total model). -/
noncomputable def calculateStandardDeviation (values : List ℚ) : ℝ :=
  if values.length < 2 then 0
  else calcStdDev values

/-! ## Sharpe calculator (src/domain/finance/sharpeCalculator.ts) -/

/-- Record produced by `calculateSharpeForPeriod`. -/
structure SharpeMetrics where
  sharpeRatio : ℝ
  trailingReturn : ℚ
  stdDev : ℝ
  periodDays : ℕ

/-- `calculateSharpeRatio(trailingReturn, stdDev, riskFreeRate = 0)`:
`0` when `stdDev === 0`, otherwise `(trailingReturn - riskFreeRate) / stdDev`. -/
noncomputable def calculateSharpeRatio (trailingReturn stdDev riskFreeRate : ℝ) : ℝ :=
  if stdDev = 0 then 0
  else (trailingReturn - riskFreeRate) / stdDev

/-- JS `prices.slice(-n)` for `n ≥ 1`: the last `min n length` elements. -/
def takeLast (n : ℕ) (l : List ℚ) : List ℚ :=
  l.drop (l.length - n)

/-- `calculateSharpeForPeriod(prices, lookbackDays)`:
`null` when `prices.length < lookbackDays * 2`; otherwise the metrics built
from the trailing return over `lookbackDays`, the standard deviation of the
one-step returns of the last `lookbackDays + 1` prices, and the Sharpe ratio
with a zero risk-free rate (the default argument of the source). -/
noncomputable def calculateSharpeForPeriod (prices : List ℚ) (lookbackDays : ℕ) :
    Option SharpeMetrics :=
  if prices.length < lookbackDays * 2 then none
  else
    let currentPrice := prices.getD (prices.length - 1) 0
    let pastPrice := prices.getD (prices.length - 1 - lookbackDays) 0
    let trailingReturn := calculateTrailingReturn currentPrice pastPrice
    let relevantPrices := takeLast (lookbackDays + 1) prices
    let returns := calculateReturns relevantPrices
    let stdDev := calculateStandardDeviation returns
    some { sharpeRatio := calculateSharpeRatio trailingReturn stdDev 0
         , trailingReturn := trailingReturn
         , stdDev := stdDev
         , periodDays := lookbackDays }

/-- Historical price point, optionally annotated with Sharpe metrics
(the source interface `PriceWithSharpe`; the `open` field is renamed
`openPrice` because `open` is a reserved word here). -/
structure PriceWithSharpe where
  date : String
  close : ℚ
  openPrice : ℚ
  high : ℚ
  low : ℚ
  volume : ℚ
  sharpeRatio1Y : Option ℝ := none
  trailingReturn1Y : Option ℚ := none
  stdDev1Y : Option ℝ := none
deriving Inhabited

/-- Index-passing map, the embedding of JS `array.map((x, index) => ...)`. -/
def mapIdxGo (f : ℕ → α → β) : ℕ → List α → List β
  | _, [] => []
  | i, a :: as => f i a :: mapIdxGo f (i + 1) as

/-- `enhanceWithSharpeMetrics(historicalData, lookback)`: maps each point with
its index; a point with `index < lookback * 2 - 1` is copied through,
otherwise the Sharpe metrics of the close-price prefix ending at the index
are attached (the `null`-metrics branch copies the point through). -/
noncomputable def enhanceWithSharpeMetrics
    (historicalData : List PriceWithSharpe) (lookback : ℕ) : List PriceWithSharpe :=
  let prices := historicalData.map (fun d => d.close)
  let requiredLength := lookback * 2
  mapIdxGo (fun index dataPoint =>
    if index < requiredLength - 1 then dataPoint
    else
      match calculateSharpeForPeriod (prices.take (index + 1)) lookback with
      | none => dataPoint
      | some metrics =>
        { dataPoint with
          sharpeRatio1Y := some metrics.sharpeRatio
          , trailingReturn1Y := some metrics.trailingReturn
          , stdDev1Y := some metrics.stdDev }) 0 historicalData

/-- The source interface `SharpeRatioData`. -/
structure SharpeRatioData where
  ticker : String
  yesterday : Option SharpeMetrics
  lastWeek : Option SharpeMetrics
  lastMonth : Option SharpeMetrics
  lastQuarter : Option SharpeMetrics
  lastSemester : Option SharpeMetrics
  lastYear : Option SharpeMetrics

/-- `calculateMultiPeriodSharpe(prices, ticker)`: six independent
`calculateSharpeForPeriod` evaluations, the 1-day slot gated by
`prices.length >= 2`. -/
noncomputable def calculateMultiPeriodSharpe (prices : List ℚ) (ticker : String) :
    SharpeRatioData :=
  { ticker := ticker
  , yesterday := if 2 ≤ prices.length then calculateSharpeForPeriod prices 1 else none
  , lastWeek := calculateSharpeForPeriod prices TRADING_DAYS_WEEK
  , lastMonth := calculateSharpeForPeriod prices TRADING_DAYS_MONTH
  , lastQuarter := calculateSharpeForPeriod prices TRADING_DAYS_QUARTER
  , lastSemester := calculateSharpeForPeriod prices TRADING_DAYS_SEMESTER
  , lastYear := calculateSharpeForPeriod prices TRADING_DAYS_YEAR }

/-! ## Stock transformer (src/domain/stock/transformer.ts) -/

/-- One raw price bar (`StockPrice`); `date` is the epoch value of
`new Date(d).getTime()`, `open` is renamed `openPrice`. -/
structure StockPrice where
  date : ℤ
  close : ℚ
  openPrice : ℚ
  high : ℚ
  low : ℚ
  volume : ℚ

/-- `filterValidPrices(data)`: keeps bars with `close > 0`, `open > 0`,
`volume >= 0` (the `NaN` rejections cannot fire in the `ℚ` model). -/
def filterValidPrices (data : List StockPrice) : List StockPrice :=
  data.filter (fun price =>
    decide (0 < price.close) && decide (0 < price.openPrice) && decide (0 ≤ price.volume))

/-- `sortChronological(data)`: stable sort by ascending date
(comparator `a.date - b.date`). -/
def sortChronological (data : List StockPrice) : List StockPrice :=
  data.mergeSort (fun a b => decide (a.date ≤ b.date))

/-- `sortReverseChronological(data)`: stable sort by descending date
(comparator `b.date - a.date`). -/
def sortReverseChronological (data : List StockPrice) : List StockPrice :=
  data.mergeSort (fun a b => decide (b.date ≤ a.date))

/-- `isChronological(data)`: the loop returning `false` at the first adjacent
pair with a strictly decreasing date. -/
def isChronological : List StockPrice → Bool
  | [] => true
  | [_] => true
  | a :: b :: rest =>
    if b.date < a.date then false
    else isChronological (b :: rest)

/-! ## Stock data service (src/services/stockData/stockDataService.ts) -/

/-- The pure data path of `fetchSingleStock` on a non-empty fetch result
(lines 49-56): filter the raw bars, then sort them with
`sortReverseChronological`; the result is the `historicalData` of the
returned record. -/
def fetchSingleStockSeries (raw : List StockPrice) : List StockPrice :=
  sortReverseChronological (filterValidPrices raw)

/-! ## Validator (src/domain/stock/validator.ts) -/

/-- The source interface `ValidationResult`. -/
structure ValidationResult (α : Type) where
  valid : Bool
  data : Option α := none
  error : Option String := none

/-- `validateLookback(lookback)`: rejects values below `LOOKBACK_MIN` or above
`LOOKBACK_MAX`, otherwise accepts with `data = Math.floor(lookback)` (the
`typeof`/`isNaN` rejection cannot fire in the `ℚ` model, which only contains
genuine numbers). -/
def validateLookback (lookback : ℚ) : ValidationResult ℚ :=
  if lookback < (LOOKBACK_MIN : ℚ) then
    { valid := false, error := some "Lookback must be at least 1" }
  else if (LOOKBACK_MAX : ℚ) < lookback then
    { valid := false, error := some "Lookback cannot exceed 1000" }
  else
    { valid := true, data := some (⌊lookback⌋ : ℚ) }

/-! ## Specification-side definitions (for refinement statements) -/

/-- Spec-side: the `lookbackDays` consecutive one-step returns of a price
window, written directly as a `zipWith` of the window with its tail. -/
def oneStepReturns (l : List ℚ) : List ℚ :=
  List.zipWith (fun a b => calculateTrailingReturn b a) l l.tail

/-- Spec-side: population variance, sum of squared deviations from the mean
divided by the sample size `N` (not `N - 1`). -/
def popVariance (values : List ℚ) : ℚ :=
  (values.map (fun v => (v - values.sum / values.length) ^ 2)).sum / values.length

/-- Sample price point used by concrete witnesses. -/
def samplePoint (c : ℚ) : PriceWithSharpe :=
  { date := "2024-01-01", close := c, openPrice := c, high := c, low := c, volume := 1 }

/-- Sample series used by concrete witnesses. -/
def sampleData : List PriceWithSharpe :=
  [samplePoint 100, samplePoint 101, samplePoint 102]

/-! ## Helper lemmas -/

theorem calculateReturns_eq_oneStep (l : List ℚ) : calculateReturns l = oneStepReturns l := by
  induction l with
  | nil => rfl
  | cons a t ih =>
    cases t with
    | nil => rfl
    | cons b rest =>
      simp only [calculateReturns, oneStepReturns, List.tail_cons, List.zipWith_cons_cons] at ih ⊢
      rw [ih]

theorem oneStepReturns_length (l : List ℚ) : (oneStepReturns l).length = l.length - 1 := by
  unfold oneStepReturns
  rw [List.length_zipWith, List.length_tail]
  omega

theorem takeLast_length (n : ℕ) (l : List ℚ) (h : n ≤ l.length) :
    (takeLast n l).length = n := by
  unfold takeLast
  rw [List.length_drop]
  omega

theorem sharpeForPeriod_eq_none_iff (prices : List ℚ) (L : ℕ) :
    calculateSharpeForPeriod prices L = none ↔ prices.length < L * 2 := by
  unfold calculateSharpeForPeriod
  split <;> simp_all

theorem sharpeForPeriod_eq_some (prices : List ℚ) (L : ℕ) (h : ¬ prices.length < L * 2) :
    calculateSharpeForPeriod prices L =
      some { sharpeRatio := calculateSharpeRatio
               (calculateTrailingReturn (prices.getD (prices.length - 1) 0)
                 (prices.getD (prices.length - 1 - L) 0))
               (calculateStandardDeviation (calculateReturns (takeLast (L + 1) prices))) 0
           , trailingReturn := calculateTrailingReturn (prices.getD (prices.length - 1) 0)
               (prices.getD (prices.length - 1 - L) 0)
           , stdDev := calculateStandardDeviation (calculateReturns (takeLast (L + 1) prices))
           , periodDays := L } := by
  unfold calculateSharpeForPeriod
  rw [if_neg h]

theorem calculateVariance_eq_popVariance (values : List ℚ) :
    calculateVariance values = popVariance values := by
  by_cases h : values.length < 2
  · match values with
    | [] => simp [calculateVariance, popVariance]
    | [x] => simp [calculateVariance, popVariance]
    | a :: b :: t =>
      simp only [List.length_cons] at h
      exact absurd h (by omega)
  · have h0 : values.length ≠ 0 := by omega
    have hm : calculateMean values = values.sum / values.length := by
      unfold calculateMean
      rw [if_neg h0]
    unfold calculateVariance popVariance
    rw [if_neg h, hm]
    unfold calculateMean
    rw [List.length_map, if_neg h0]

theorem mapIdxGo_length (f : ℕ → α → β) : ∀ (k : ℕ) (l : List α),
    (mapIdxGo f k l).length = l.length
  | _, [] => rfl
  | k, _ :: as => by simp [mapIdxGo, mapIdxGo_length f (k + 1) as]

theorem mapIdxGo_getD (f : ℕ → α → β) (da : α) (db : β) (l : List α) :
    ∀ (k i : ℕ), i < l.length →
      (mapIdxGo f k l).getD i db = f (k + i) (l.getD i da) := by
  induction l with
  | nil =>
    intro k i h
    simp at h
  | cons a as ih =>
    intro k i h
    cases i with
    | zero => simp [mapIdxGo]
    | succ i =>
      simp only [mapIdxGo, List.getD_cons_succ]
      rw [ih (k + 1) i (by simp at h; omega)]
      congr 1
      omega

theorem enhance_length (data : List PriceWithSharpe) (L : ℕ) :
    (enhanceWithSharpeMetrics data L).length = data.length := by
  unfold enhanceWithSharpeMetrics
  exact mapIdxGo_length _ 0 data

theorem enhance_getD_lt (data : List PriceWithSharpe) (L i : ℕ) (h : i < data.length)
    (hi : i < L * 2 - 1) :
    (enhanceWithSharpeMetrics data L).getD i default = data.getD i default := by
  unfold enhanceWithSharpeMetrics
  rw [mapIdxGo_getD _ default default data 0 i h]
  simp only [Nat.zero_add]
  rw [if_pos hi]

theorem enhance_getD_ge (data : List PriceWithSharpe) (L i : ℕ) (h : i < data.length)
    (hL : 1 ≤ L) (hi : L * 2 - 1 ≤ i) :
    ∃ m, calculateSharpeForPeriod ((data.map (fun d => d.close)).take (i + 1)) L = some m ∧
      (enhanceWithSharpeMetrics data L).getD i default =
        { data.getD i default with
          sharpeRatio1Y := some m.sharpeRatio
          , trailingReturn1Y := some m.trailingReturn
          , stdDev1Y := some m.stdDev } := by
  have hlen : ¬ ((data.map (fun d => d.close)).take (i + 1)).length < L * 2 := by
    rw [List.length_take, List.length_map]
    omega
  refine ⟨_, sharpeForPeriod_eq_some _ L hlen, ?_⟩
  unfold enhanceWithSharpeMetrics
  rw [mapIdxGo_getD _ default default data 0 i h]
  simp only [Nat.zero_add]
  rw [if_neg (by omega), sharpeForPeriod_eq_some _ L hlen]

/-! ## Claim theorems -/

/-- C1: for every lookback `L ≥ 1`, `calculateSharpeForPeriod` returns `null`
exactly when the series is shorter than `2 * L`; with length at least `2 * L`
it returns a metrics record whose `periodDays` is `L`. -/
theorem C1_sharpeForPeriod_null_iff (prices : List ℚ) (L : ℕ) (hL : 1 ≤ L) :
    (calculateSharpeForPeriod prices L = none ↔ prices.length < 2 * L) ∧
    (2 * L ≤ prices.length →
      ∃ m, calculateSharpeForPeriod prices L = some m ∧ m.periodDays = L) := by
  constructor
  · rw [sharpeForPeriod_eq_none_iff]
    omega
  · intro h
    exact ⟨_, sharpeForPeriod_eq_some prices L (by omega), rfl⟩

theorem C1_witness :
    1 ≤ 2 ∧
    ((calculateSharpeForPeriod [100, 101, 102, 103] 2 = none ↔
        ([100, 101, 102, 103] : List ℚ).length < 2 * 2) ∧
      (2 * 2 ≤ ([100, 101, 102, 103] : List ℚ).length →
        ∃ m, calculateSharpeForPeriod [100, 101, 102, 103] 2 = some m ∧ m.periodDays = 2)) :=
  ⟨by norm_num, C1_sharpeForPeriod_null_iff [100, 101, 102, 103] 2 (by norm_num)⟩

/-- C2: a non-null result of `calculateSharpeForPeriod` carries the trailing
return between the latest price and the price `L` positions back, and the
standard deviation of the `L` consecutive one-step returns of the last
`L + 1` prices. -/
theorem C2_trailingReturn_and_stdDev (prices : List ℚ) (L : ℕ) (hL : 1 ≤ L)
    (hlen : 2 * L ≤ prices.length) :
    ∃ m, calculateSharpeForPeriod prices L = some m ∧
      m.trailingReturn = calculateTrailingReturn (prices.getD (prices.length - 1) 0)
        (prices.getD (prices.length - 1 - L) 0) ∧
      m.stdDev = calculateStandardDeviation (oneStepReturns (takeLast (L + 1) prices)) ∧
      (takeLast (L + 1) prices).length = L + 1 ∧
      (oneStepReturns (takeLast (L + 1) prices)).length = L := by
  refine ⟨_, sharpeForPeriod_eq_some prices L (by omega), rfl, ?_, ?_, ?_⟩
  · rw [calculateReturns_eq_oneStep]
  · exact takeLast_length (L + 1) prices (by omega)
  · rw [oneStepReturns_length, takeLast_length (L + 1) prices (by omega)]
    omega

theorem C2_witness :
    1 ≤ 1 ∧ 2 * 1 ≤ ([100, 110] : List ℚ).length ∧
    ∃ m, calculateSharpeForPeriod [100, 110] 1 = some m ∧
      m.trailingReturn = calculateTrailingReturn (([100, 110] : List ℚ).getD (2 - 1) 0)
        (([100, 110] : List ℚ).getD (2 - 1 - 1) 0) ∧
      m.stdDev = calculateStandardDeviation (oneStepReturns (takeLast (1 + 1) [100, 110])) ∧
      (takeLast (1 + 1) ([100, 110] : List ℚ)).length = 1 + 1 ∧
      (oneStepReturns (takeLast (1 + 1) [100, 110])).length = 1 :=
  ⟨by norm_num, by norm_num, C2_trailingReturn_and_stdDev [100, 110] 1 (by norm_num) (by norm_num)⟩

/-- C3: `calculateSharpeRatio` returns `0` when the standard deviation is `0`
and the risk-adjusted quotient otherwise; no division by zero ever occurs. -/
theorem C3_sharpeRatio_zero_guard (tr sd rf : ℝ) :
    (sd = 0 → calculateSharpeRatio tr sd rf = 0) ∧
    (sd ≠ 0 → calculateSharpeRatio tr sd rf = (tr - rf) / sd) := by
  unfold calculateSharpeRatio
  constructor
  · intro h
    rw [if_pos h]
  · intro h
    rw [if_neg h]

theorem C3_witness :
    calculateSharpeRatio 3 0 1 = 0 ∧ calculateSharpeRatio 3 2 1 = (3 - 1) / 2 :=
  ⟨(C3_sharpeRatio_zero_guard 3 0 1).1 rfl, (C3_sharpeRatio_zero_guard 3 2 1).2 (by norm_num)⟩

/-- C7: the standard deviation is the square root of the population variance
(division by `N`, not `N - 1`); with fewer than two samples both the variance
and the standard deviation are `0`. -/
theorem C7_stdDev_sqrt_popVariance (values : List ℚ) :
    calculateStandardDeviation values = Real.sqrt (popVariance values) ∧
    calculateVariance values = popVariance values ∧
    (values.length < 2 → calculateStandardDeviation values = 0 ∧ calculateVariance values = 0) := by
  have hv := calculateVariance_eq_popVariance values
  have hz : values.length < 2 → calculateStandardDeviation values = 0 ∧
      calculateVariance values = 0 := by
    intro h
    unfold calculateStandardDeviation calculateVariance
    rw [if_pos h, if_pos h]
    exact ⟨rfl, rfl⟩
  refine ⟨?_, hv, hz⟩
  by_cases h : values.length < 2
  · rw [(hz h).1, ← hv, (hz h).2]
    rw [Rat.cast_zero, Real.sqrt_zero]
  · unfold calculateStandardDeviation calcStdDev
    rw [if_neg h, hv]

/-- C4: `enhanceWithSharpeMetrics` preserves the length; a point before index
`2 * L - 1` is copied through unchanged, and a later point carries exactly the
metrics of `calculateSharpeForPeriod` on the close-price prefix ending at its
index, so the metric at day `i` uses only prices at indices `≤ i`. -/
theorem C4_enhance_pointwise (data : List PriceWithSharpe) (L i : ℕ) (hL : 1 ≤ L)
    (h : i < data.length) :
    (enhanceWithSharpeMetrics data L).length = data.length ∧
    (i < 2 * L - 1 → (enhanceWithSharpeMetrics data L).getD i default = data.getD i default) ∧
    (2 * L - 1 ≤ i →
      ∃ m, calculateSharpeForPeriod ((data.map (fun d => d.close)).take (i + 1)) L = some m ∧
        (enhanceWithSharpeMetrics data L).getD i default =
          { data.getD i default with
            sharpeRatio1Y := some m.sharpeRatio
            , trailingReturn1Y := some m.trailingReturn
            , stdDev1Y := some m.stdDev }) := by
  refine ⟨enhance_length data L, ?_, ?_⟩
  · intro hi
    exact enhance_getD_lt data L i h (by omega)
  · intro hi
    exact enhance_getD_ge data L i h hL (by omega)

theorem C4_witness :
    1 ≤ 1 ∧ 1 < sampleData.length ∧
    ((enhanceWithSharpeMetrics sampleData 1).length = sampleData.length ∧
      (1 < 2 * 1 - 1 →
        (enhanceWithSharpeMetrics sampleData 1).getD 1 default = sampleData.getD 1 default) ∧
      (2 * 1 - 1 ≤ 1 →
        ∃ m, calculateSharpeForPeriod ((sampleData.map (fun d => d.close)).take (1 + 1)) 1 =
            some m ∧
          (enhanceWithSharpeMetrics sampleData 1).getD 1 default =
            { sampleData.getD 1 default with
              sharpeRatio1Y := some m.sharpeRatio
              , trailingReturn1Y := some m.trailingReturn
              , stdDev1Y := some m.stdDev })) :=
  ⟨by norm_num, by norm_num [sampleData], C4_enhance_pointwise sampleData 1 1 (by norm_num)
    (by norm_num [sampleData])⟩

/-- C5: `calculateMultiPeriodSharpe` evaluates the six fixed lookbacks
1, 5, 21, 63, 125, 250 independently, the 1-day slot gated by
`prices.length ≥ 2`, and each slot is `null` exactly when its own data
requirement is unmet. -/
theorem C5_multiPeriod_slots (prices : List ℚ) (ticker : String) :
    (calculateMultiPeriodSharpe prices ticker).ticker = ticker ∧
    (calculateMultiPeriodSharpe prices ticker).yesterday =
      (if 2 ≤ prices.length then calculateSharpeForPeriod prices 1 else none) ∧
    (calculateMultiPeriodSharpe prices ticker).lastWeek = calculateSharpeForPeriod prices 5 ∧
    (calculateMultiPeriodSharpe prices ticker).lastMonth = calculateSharpeForPeriod prices 21 ∧
    (calculateMultiPeriodSharpe prices ticker).lastQuarter = calculateSharpeForPeriod prices 63 ∧
    (calculateMultiPeriodSharpe prices ticker).lastSemester =
      calculateSharpeForPeriod prices 125 ∧
    (calculateMultiPeriodSharpe prices ticker).lastYear = calculateSharpeForPeriod prices 250 ∧
    ((calculateMultiPeriodSharpe prices ticker).yesterday = none ↔ prices.length < 2) ∧
    ((calculateMultiPeriodSharpe prices ticker).lastWeek = none ↔ prices.length < 10) ∧
    ((calculateMultiPeriodSharpe prices ticker).lastMonth = none ↔ prices.length < 42) ∧
    ((calculateMultiPeriodSharpe prices ticker).lastQuarter = none ↔ prices.length < 126) ∧
    ((calculateMultiPeriodSharpe prices ticker).lastSemester = none ↔ prices.length < 250) ∧
    ((calculateMultiPeriodSharpe prices ticker).lastYear = none ↔ prices.length < 500) := by
  refine ⟨rfl, rfl, rfl, rfl, rfl, rfl, rfl, ?_, ?_, ?_, ?_, ?_, ?_⟩
  · show (if 2 ≤ prices.length then calculateSharpeForPeriod prices 1 else none) = none ↔ _
    by_cases h2 : 2 ≤ prices.length
    · rw [if_pos h2, sharpeForPeriod_eq_none_iff]
    · rw [if_neg h2]
      have hlt : prices.length < 2 := by omega
      simp [hlt]
  · show calculateSharpeForPeriod prices TRADING_DAYS_WEEK = none ↔ _
    rw [sharpeForPeriod_eq_none_iff]
    simp [TRADING_DAYS_WEEK]
  · show calculateSharpeForPeriod prices TRADING_DAYS_MONTH = none ↔ _
    rw [sharpeForPeriod_eq_none_iff]
    simp [TRADING_DAYS_MONTH]
  · show calculateSharpeForPeriod prices TRADING_DAYS_QUARTER = none ↔ _
    rw [sharpeForPeriod_eq_none_iff]
    simp [TRADING_DAYS_QUARTER]
  · show calculateSharpeForPeriod prices TRADING_DAYS_SEMESTER = none ↔ _
    rw [sharpeForPeriod_eq_none_iff]
    simp [TRADING_DAYS_SEMESTER]
  · show calculateSharpeForPeriod prices TRADING_DAYS_YEAR = none ↔ _
    rw [sharpeForPeriod_eq_none_iff]
    simp [TRADING_DAYS_YEAR]

/-- C10: inside `enhanceWithSharpeMetrics`, for every index `i ≥ 2 * L - 1`
with `L ≥ 1` the inner `calculateSharpeForPeriod` call on the close-price
prefix of length `i + 1` is non-null, so the null fallback branch of the map
is unreachable. -/
theorem C10_inner_call_isSome (data : List PriceWithSharpe) (L i : ℕ) (hL : 1 ≤ L)
    (hi : 2 * L - 1 ≤ i) (h : i < data.length) :
    (calculateSharpeForPeriod ((data.map (fun d => d.close)).take (i + 1)) L).isSome = true := by
  rw [sharpeForPeriod_eq_some _ L (by rw [List.length_take, List.length_map]; omega)]
  rfl

theorem C10_witness :
    1 ≤ 1 ∧ 2 * 1 - 1 ≤ 1 ∧ 1 < sampleData.length ∧
    (calculateSharpeForPeriod ((sampleData.map (fun d => d.close)).take (1 + 1)) 1).isSome =
      true :=
  ⟨by norm_num, by norm_num, by norm_num [sampleData],
    C10_inner_call_isSome sampleData 1 1 (by norm_num) (by norm_num)
      (by norm_num [sampleData])⟩

theorem C7_witness :
    calculateStandardDeviation [1, 2] = Real.sqrt (popVariance [1, 2]) ∧
    calculateStandardDeviation [5] = 0 ∧ calculateVariance [5] = 0 :=
  ⟨(C7_stdDev_sqrt_popVariance [1, 2]).1,
    ((C7_stdDev_sqrt_popVariance [5]).2.2 (by norm_num)).1,
    ((C7_stdDev_sqrt_popVariance [5]).2.2 (by norm_num)).2⟩

theorem pairwise_sortReverseChronological (l : List StockPrice) :
    (sortReverseChronological l).Pairwise (fun a b => b.date ≤ a.date) := by
  have h := @List.sorted_mergeSort StockPrice (fun a b => decide (b.date ≤ a.date))
    (fun a b c h1 h2 =>
      decide_eq_true (le_trans (of_decide_eq_true h2) (of_decide_eq_true h1)))
    (fun a b => by
      simp only [Bool.or_eq_true, decide_eq_true_eq]
      omega) l
  exact h.imp (fun hab => of_decide_eq_true hab)

theorem pairwise_sortChronological (l : List StockPrice) :
    (sortChronological l).Pairwise (fun a b => a.date ≤ b.date) := by
  have h := @List.sorted_mergeSort StockPrice (fun a b => decide (a.date ≤ b.date))
    (fun a b c h1 h2 =>
      decide_eq_true (le_trans (of_decide_eq_true h1) (of_decide_eq_true h2)))
    (fun a b => by
      simp only [Bool.or_eq_true, decide_eq_true_eq]
      omega) l
  exact h.imp (fun hab => of_decide_eq_true hab)

theorem isChronological_of_pairwise (l : List StockPrice)
    (h : l.Pairwise (fun a b => a.date ≤ b.date)) : isChronological l = true := by
  induction l with
  | nil => rfl
  | cons a t ih =>
    cases t with
    | nil => rfl
    | cons b r =>
      rw [List.pairwise_cons] at h
      have hab : a.date ≤ b.date := h.1 b (by simp)
      show isChronological (a :: b :: r) = true
      unfold isChronological
      rw [if_neg (by omega)]
      exact ih h.2

unseal List.merge List.mergeSort in
/-- C8 counterexample: a two-bar chronological input comes out of the
validated-and-sorted path of `fetchSingleStock` in the reverse order, so the
produced series is not non-decreasing by date. -/
theorem C8_counterexample :
    isChronological (fetchSingleStockSeries
      [{ date := 0, close := 10, openPrice := 10, high := 10, low := 10, volume := 1 },
       { date := 1, close := 11, openPrice := 11, high := 11, low := 11, volume := 1 }]) =
      false := by
  decide

/-- C8 (amended): the series produced by the validate-and-sort path of
`fetchSingleStock` is in reverse chronological order (newest first,
non-increasing by date); the chronological order the analytics engine needs
is restored by the `sortChronological` pass of the consumer, after which
`isChronological` holds. -/
theorem C8_fetch_series_order (raw : List StockPrice) :
    (fetchSingleStockSeries raw).Pairwise (fun a b => b.date ≤ a.date) ∧
    isChronological (sortChronological (fetchSingleStockSeries raw)) = true := by
  constructor
  · exact pairwise_sortReverseChronological (filterValidPrices raw)
  · exact isChronological_of_pairwise _ (pairwise_sortChronological (fetchSingleStockSeries raw))

/-- C9 counterexample: `validateLookback` accepts the non-integer input
`5 / 2` (whose denominator is not `1`) and silently floors it to the
different value `2` in the returned data. -/
theorem C9_counterexample :
    (validateLookback (5 / 2)).valid = true ∧
    (validateLookback (5 / 2)).data = some 2 ∧
    ¬ (∃ n : ℤ, (5 : ℚ) / 2 = (n : ℚ)) ∧ (5 : ℚ) / 2 ≠ 2 := by
  refine ⟨?_, ?_, ?_, by norm_num⟩
  · unfold validateLookback
    rw [if_neg (by norm_num [LOOKBACK_MIN]), if_neg (by norm_num [LOOKBACK_MAX])]
  · unfold validateLookback
    rw [if_neg (by norm_num [LOOKBACK_MIN]), if_neg (by norm_num [LOOKBACK_MAX])]
    norm_num
  · rintro ⟨n, hn⟩
    have h2 : (5 : ℚ) = 2 * (n : ℚ) := by
      field_simp at hn
      linarith
    have h3 : (5 : ℤ) = 2 * n := by exact_mod_cast h2
    omega

/-- C9 (amended): `validateLookback` accepts exactly the numeric lookbacks
`x` with `1 ≤ x ≤ 1000`, whether or not `x` is an integer; an accepted input
is returned as `data = floor(x)` (so a non-integer accepted input is floored
to a different value), and a rejected input carries an error and no data. -/
theorem C9_validateLookback_range (x : ℚ) :
    ((validateLookback x).valid = true ↔ 1 ≤ x ∧ x ≤ 1000) ∧
    ((validateLookback x).valid = true →
      (validateLookback x).data = some ((⌊x⌋ : ℤ) : ℚ) ∧ (validateLookback x).error = none) ∧
    ((validateLookback x).valid = false →
      (validateLookback x).data = none ∧ (validateLookback x).error ≠ none) := by
  unfold validateLookback
  split_ifs with h1 h2
  · have hmin : ((LOOKBACK_MIN : ℕ) : ℚ) = 1 := by norm_num [LOOKBACK_MIN]
    rw [hmin] at h1
    have hx : ¬ (1 ≤ x ∧ x ≤ 1000) := by
      rintro ⟨ha, -⟩
      linarith
    exact ⟨by simpa using hx, by simp, by simp⟩
  · have hmax : ((LOOKBACK_MAX : ℕ) : ℚ) = 1000 := by norm_num [LOOKBACK_MAX]
    rw [hmax] at h2
    have hx : ¬ (1 ≤ x ∧ x ≤ 1000) := by
      rintro ⟨-, hb⟩
      linarith
    exact ⟨by simpa using hx, by simp, by simp⟩
  · have hmin : ((LOOKBACK_MIN : ℕ) : ℚ) = 1 := by norm_num [LOOKBACK_MIN]
    have hmax : ((LOOKBACK_MAX : ℕ) : ℚ) = 1000 := by norm_num [LOOKBACK_MAX]
    rw [hmin] at h1
    rw [hmax] at h2
    have hx : 1 ≤ x ∧ x ≤ 1000 := ⟨le_of_not_lt h1, le_of_not_lt h2⟩
    exact ⟨by simpa using hx, fun _ => ⟨rfl, rfl⟩, by simp⟩

theorem C9_witness :
    (validateLookback 7).valid = true ∧ (validateLookback 7).data = some 7 ∧
    (validateLookback 1001).valid = false ∧ (validateLookback 1001).error ≠ none := by
  have h7 := C9_validateLookback_range 7
  have h1001 := C9_validateLookback_range 1001
  have hv : (validateLookback 7).valid = true := h7.1.mpr (by norm_num)
  have hv2 : (validateLookback 1001).valid = false := by
    have hne : ¬ (validateLookback 1001).valid = true := by
      rw [h1001.1]
      norm_num
    exact Bool.eq_false_iff.mpr hne
  refine ⟨hv, ?_, hv2, (h1001.2.2 hv2).2⟩
  rw [(h7.2.1 hv).1]
  norm_num

end FireDashboard
